import Mathlib

/-!
Shallow embedding of the audio-reactive visualization pipeline
(`AudioSpectrum`, src/unnamed/part_004, lines 764-1259) and of the VR
session/tracking snapshot logic (`VRSceneManager`, src/components/VRScene.ts)
of the webdevbrian/vr_webxr repository, together with proofs of the spec's
claims about them.

Conventions of the embedding:
* JavaScript numbers are modelled as rationals (ℚ); `Uint8Array` entries as
  naturals bounded by 255.
* `Math.random()` outcomes are passed in as explicit parameters.
* Object mutation is modelled by explicit state passing; for the aliasing
  questions about `getVRSessionData` a small explicit heap (a list of
  objects addressed by index) is used.
* Babylon.js mesh/material state is modelled only in the fields the code
  reads or writes and the spec talks about (position, scaling, enabled
  flag, alpha); purely cosmetic fields (emissive color, lights, rotation)
  are not modelled.
-/

namespace VRWebXR

/-! ## Audio spectrum data model (src/unnamed/part_004) -/

/-- One entry of the particle pool: the `ParticleData` record plus the
modelled state of its Babylon mesh (`enabled`, `scale`, `alpha` mirror
`mesh.setEnabled`, `mesh.scaling`, `material.alpha`). -/
structure ParticleData where
  posX : ℚ
  posY : ℚ
  posZ : ℚ
  velX : ℚ
  velY : ℚ
  velZ : ℚ
  life : ℚ
  maxLife : ℚ
  active : Bool
  enabled : Bool
  scale : ℚ
  alpha : ℚ
  cylinderIndex : ℕ
  deriving DecidableEq

/-- Modelled state of one spectrum bar mesh (position and vertical scale,
the fields `emitParticle` and `updateSpectrumBars` read or write). -/
structure SpectrumBar where
  posX : ℚ
  posY : ℚ
  posZ : ℚ
  scalingY : ℚ
  deriving DecidableEq

/-- The `Math.random()` draws made by one `emitParticle` call. -/
structure Rnd where
  px : ℚ
  pz : ℚ
  vx : ℚ
  vy : ℚ
  vz : ℚ
  deriving DecidableEq

/-- The mutable state of the `AudioSpectrum` class that the claims are
about: band count and `maxHeight` from the config, the smoothed band
intensities, the particle pool, the per-band emission timers and the bars. -/
structure AudioState where
  bandCount : ℕ
  maxHeight : ℚ
  smoothedData : List ℚ
  particlePool : List ParticleData
  particleEmissionTimers : List ℚ
  spectrumBars : List SpectrumBar
  deriving DecidableEq

/-- `this.maxParticlesPerCylinder = 10`. -/
def maxParticlesPerCylinder : ℕ := 10

/-- One pool entry as built by `initializeParticlePool` for pool index `i`:
mesh created disabled at the origin, zero velocity, `life = 0`,
`maxLife = 3.0`, `active = false`, `cylinderIndex = floor(i / 10)`,
initial scaling 1 and material alpha 0.8. -/
def initParticle (i : ℕ) : ParticleData :=
  { posX := 0, posY := 0, posZ := 0
    velX := 0, velY := 0, velZ := 0
    life := 0, maxLife := 3
    active := false, enabled := false
    scale := 1, alpha := 4/5
    cylinderIndex := i / maxParticlesPerCylinder }

/-- `initializeParticlePool`: `bandCount * maxParticlesPerCylinder` entries,
entry `i` owned by cylinder `floor(i / 10)`. -/
def initializeParticlePool (bandCount : ℕ) : List ParticleData :=
  (List.range (bandCount * maxParticlesPerCylinder)).map initParticle

/-- `createSpectrumBars`: bars in a line, spacing 1.5, centered, at
`y = 0.25`, `z = 8`, initial scaling 1. -/
def createSpectrumBars (bandCount : ℕ) : List SpectrumBar :=
  let spacing : ℚ := 3/2
  let totalWidth : ℚ := ((bandCount : ℚ) - 1) * spacing
  let startX : ℚ := -totalWidth / 2
  (List.range bandCount).map fun i =>
    { posX := startX + (i : ℚ) * spacing, posY := 1/4, posZ := 8, scalingY := 1 }

/-- The `AudioSpectrum` constructor state: all smoothed intensities and
emission timers start at 0, bars and pool as created. -/
def initAudioState (bandCount : ℕ) (maxHeight : ℚ) : AudioState :=
  { bandCount := bandCount
    maxHeight := maxHeight
    smoothedData := List.replicate bandCount 0
    particlePool := initializeParticlePool bandCount
    particleEmissionTimers := List.replicate bandCount 0
    spectrumBars := createSpectrumBars bandCount }

/-! ## Frequency band processing (`processFrequencyBands`) -/

/-- The normalized value computed for band `i` by `processFrequencyBands`:
average the frequency bins `[i*bandsPerBar, min(i*bandsPerBar + bandsPerBar,
length))`, divide by 255, scale by 2.5 and clamp to 1. -/
def normalizedBand (freq : List ℕ) (bandsPerBar i : ℕ) : ℚ :=
  let startIndex := i * bandsPerBar
  let endIndex := min (startIndex + bandsPerBar) freq.length
  let sum : ℚ := (((freq.drop startIndex).take (endIndex - startIndex)).map
    (fun b : ℕ => (b : ℚ))).sum
  let average := sum / ((endIndex : ℚ) - (startIndex : ℚ))
  min ((average / 255) * (5/2)) 1

/-- The per-band smoothing update of `processFrequencyBands`:
`smoothed[i] = smoothed[i] * 0.7 + normalized * 0.3`. -/
def processBand (freq : List ℕ) (bandsPerBar i : ℕ) (old : ℚ) : ℚ :=
  old * (7/10) + normalizedBand freq bandsPerBar i * (3/10)

/-- `processFrequencyBands`, given this frame's frequency sample. -/
def processFrequencyBands (freq : List ℕ) (s : AudioState) : AudioState :=
  let bandsPerBar := freq.length / s.bandCount
  { s with smoothedData := (List.range s.bandCount).map fun i =>
      processBand freq bandsPerBar i (s.smoothedData.getD i 0) }

/-- The per-band value computed by `processFrequencyBands` under the
source's JavaScript float semantics, with `none` standing for NaN.  The
only NaN source in the band computation is the average: every summand is a
finite byte value and the denominator `endIndex - startIndex` is a
nonnegative integer, so the computation is NaN-free unless the bin group
is empty (`endIndex - startIndex = 0`, which happens exactly when
`bandsPerBar = 0`, i.e. the band count exceeds the sample length).  In
that case the code computes `average = 0/0 = NaN`, `Math.min(NaN, 1) =
NaN`, and `old*0.7 + NaN*0.3 = NaN`, so NaN is stored; otherwise the
stored value is the (exact-arithmetic) `processBand` value. -/
def jsBandValue (freq : List ℕ) (bandsPerBar i : ℕ) (old : ℚ) : Option ℚ :=
  let startIndex := i * bandsPerBar
  let endIndex := min (startIndex + bandsPerBar) freq.length
  if endIndex - startIndex = 0 then none
  else some (processBand freq bandsPerBar i old)

/-! ## Spectrum bar update (`updateSpectrumBars`), modelled fields only -/

/-- `updateSpectrumBars`: per bar, `scaling.y = 0.5 + intensity*maxHeight`
and `position.y = targetHeight / 2` (light and material updates are not
modelled). -/
def updateSpectrumBars (s : AudioState) : AudioState :=
  { s with spectrumBars := (List.range s.spectrumBars.length).map fun i =>
      let bar := s.spectrumBars.getD i ⟨0, 0, 0, 0⟩
      let intensity := s.smoothedData.getD i 0
      let targetHeight := 1/2 + intensity * s.maxHeight
      { bar with scalingY := targetHeight, posY := targetHeight / 2 } }

/-! ## Particle lifecycle (`getInactiveParticle`, `emitParticle`,
`updateParticles`, `updateParticleEmission`) -/

/-- `getInactiveParticle`: index of the first pool entry that is inactive
and owned by the given cylinder (the source returns the entry itself; the
index is the embedding of that mutable reference), or `none`. -/
def getInactiveParticle (c : ℕ) : List ParticleData → Option ℕ
  | [] => none
  | p :: rest =>
      if !p.active && p.cylinderIndex == c then some 0
      else (getInactiveParticle c rest).map (· + 1)

/-- The fields `emitParticle` writes on the found pool entry: position at
the top of the bar with random jitter, upward velocity with jitter,
`life = maxLife`, activated, mesh enabled, scaling 1, alpha 0.8. -/
def emitUpdate (bar : SpectrumBar) (rnd : Rnd) (p : ParticleData) : ParticleData :=
  let topY := bar.posY + bar.scalingY * (1/2)
  { p with
    posX := bar.posX + (rnd.px - 1/2) * (3/10)
    posY := topY
    posZ := bar.posZ + (rnd.pz - 1/2) * (3/10)
    velX := (rnd.vx - 1/2) * (1/2)
    velY := 1 + rnd.vy * (1/2)
    velZ := (rnd.vz - 1/2) * (1/2)
    life := p.maxLife
    active := true
    enabled := true
    scale := 1
    alpha := 4/5 }

/-- `emitParticle(cylinderIndex, intensity)`: a silent no-op when
`getInactiveParticle` finds nothing (the `intensity` argument is unused in
the source body as well). -/
def emitParticle (c : ℕ) (intensity : ℚ) (rnd : Rnd) (s : AudioState) : AudioState :=
  match getInactiveParticle c s.particlePool with
  | none => s
  | some j =>
      let bar := s.spectrumBars.getD c ⟨0, 0, 0, 0⟩
      let p := s.particlePool.getD j (initParticle 0)
      { s with particlePool := s.particlePool.set j (emitUpdate bar rnd p) }

/-- The body of the `updateParticles` loop for one pool entry: skip
inactive entries; decrement `life` by `dt`; on `life <= 0` deactivate and
disable the mesh; otherwise integrate position with the pre-decay velocity,
apply gravity and damping to the velocity and derive alpha and scale from
the remaining-life ratio (the emissive-color update is not modelled). -/
def updateParticle (dt : ℚ) (p : ParticleData) : ParticleData :=
  if !p.active then p
  else
    let life := p.life - dt
    if life ≤ 0 then { p with life := life, active := false, enabled := false }
    else
      let lifeRatio := life / p.maxLife
      { p with
        life := life
        posX := p.posX + p.velX * dt
        posY := p.posY + p.velY * dt
        posZ := p.posZ + p.velZ * dt
        velX := p.velX * (49/50)
        velY := (p.velY - (1/5) * dt) * (49/50)
        velZ := p.velZ * (49/50)
        alpha := min (4/5) (lifeRatio * (6/5))
        scale := 1/2 + lifeRatio * (1/2) }

/-- `updateParticles`. -/
def updateParticles (dt : ℚ) (s : AudioState) : AudioState :=
  { s with particlePool := s.particlePool.map (updateParticle dt) }

/-- The body of the `updateParticleEmission` loop for band `i`: decrement
the band's timer by `dt`; when it has reached zero or below, emit one
particle and reset the timer to
`min(0.3, max(0.05, 0.3 - intensity * 0.25))`.  The staggered burst
emissions scheduled through `setTimeout` run outside this step and are
modelled as separate `Step.burst` transitions. -/
def emissionStep (dt : ℚ) (rnds : ℕ → Rnd) (i : ℕ) (s : AudioState) : AudioState :=
  let intensity := s.smoothedData.getD i 0
  let timer := s.particleEmissionTimers.getD i 0 - dt
  let s1 := { s with particleEmissionTimers := s.particleEmissionTimers.set i timer }
  let baseEmissionRate : ℚ := 3/10
  let intensityEmissionRate : ℚ := max (1/20) (3/10 - intensity * (1/4))
  let emissionRate := min baseEmissionRate intensityEmissionRate
  if timer ≤ 0 then
    let s2 := emitParticle i intensity (rnds i) s1
    { s2 with particleEmissionTimers := s2.particleEmissionTimers.set i emissionRate }
  else s1

/-- `updateParticleEmission`: the per-band body run for every band in
order. -/
def updateParticleEmission (dt : ℚ) (rnds : ℕ → Rnd) (s : AudioState) : AudioState :=
  (List.range s.bandCount).foldl (fun st i => emissionStep dt rnds i st) s

/-! ## The frame-driven transition system -/

/-- One transition of the `AudioSpectrum` state: one of the mutations the
animation loop performs each frame (frequency processing on a byte sample,
bar update, particle update, emission update), plus the stand-alone
`emitParticle` calls fired by the staggered burst `setTimeout` callbacks. -/
inductive Step : AudioState → AudioState → Prop
  | process (freq : List ℕ) (s : AudioState) (hbytes : ∀ b ∈ freq, b ≤ 255) :
      Step s (processFrequencyBands freq s)
  | bars (s : AudioState) : Step s (updateSpectrumBars s)
  | particles (dt : ℚ) (s : AudioState) : Step s (updateParticles dt s)
  | emission (dt : ℚ) (rnds : ℕ → Rnd) (s : AudioState) :
      Step s (updateParticleEmission dt rnds s)
  | burst (c : ℕ) (intensity : ℚ) (rnd : Rnd) (s : AudioState) :
      Step s (emitParticle c intensity rnd s)

/-- Reachability from the constructor state. -/
def Reachable (bandCount : ℕ) (maxHeight : ℚ) (s : AudioState) : Prop :=
  Relation.ReflTransGen Step (initAudioState bandCount maxHeight) s

/-- The state invariant maintained by every transition: the smoothed data,
timers and pool keep their constructor lengths, every smoothed value stays
in `[0,1]`, every pool entry keeps its constructor `cylinderIndex`, and no
inactive pool entry has its mesh enabled. -/
structure Inv (n : ℕ) (s : AudioState) : Prop where
  bands : s.bandCount = n
  sdLen : s.smoothedData.length = n
  sdRange : ∀ x ∈ s.smoothedData, 0 ≤ x ∧ x ≤ 1
  poolLen : s.particlePool.length = n * maxParticlesPerCylinder
  poolCyl : ∀ (j : ℕ) (hj : j < s.particlePool.length),
      (s.particlePool.get ⟨j, hj⟩).cylinderIndex = j / maxParticlesPerCylinder
  inactiveDisabled : ∀ p ∈ s.particlePool, p.active = false → p.enabled = false
  timersLen : s.particleEmissionTimers.length = n

/-! ## Bar colors (`getCyberpunkColor`) -/

/-- An rgb color triple (the fields of a Babylon `Color3`). -/
structure ColorRGB where
  r : ℚ
  g : ℚ
  b : ℚ
  deriving DecidableEq

/-- `getCyberpunkColor`: the three-segment electric-blue → cyan → magenta
→ hot-pink gradient used for the per-band base colors. -/
def getCyberpunkColor (progress : ℚ) : ColorRGB :=
  if progress < 33/100 then
    let t := progress / (33/100)
    { r := 0 * (1 - t) + 0 * t, g := (1/2) * (1 - t) + 1 * t, b := 1 }
  else if progress < 66/100 then
    let t := (progress - 33/100) / (33/100)
    { r := 0 * (1 - t) + 1 * t, g := 1 * (1 - t) + 0 * t, b := 1 }
  else
    let t := (progress - 66/100) / (34/100)
    { r := 1, g := 0 * (1 - t) + (1/5) * t, b := 1 * (1 - t) + (4/5) * t }

/-! ## VR session data and tracking (src/components/VRScene.ts)

`getVRSessionData` returns `{ ...this.vrSessionData }`: a fresh top-level
object whose nested `headPosition` / `headRotation` / `controllers` fields
are shared by reference with the manager's own object.  To reason about
that aliasing, the heap of relevant JavaScript objects is modelled
explicitly as a list of objects addressed by index; a heap address plays
the role of an object reference. -/

/-- A 3-component vector record (`{ x, y, z }`). -/
structure Vec3 where
  x : ℚ
  y : ℚ
  z : ℚ
  deriving DecidableEq

/-- One entry of the `controllers` array (`VRControllerData` in
src/types/VRTypes; positions/rotations already rounded, rotation in
degrees).  Controller entries are rebuilt fresh on every tracking tick, so
their own nesting is modelled by value. -/
structure VRControllerData where
  id : String
  position : Vec3
  rotation : Vec3
  connected : Bool
  deriving DecidableEq

/-- The `VRSessionData` record with its nested objects as heap
references. -/
structure SessionRefs where
  isActive : Bool
  isSupported : Bool
  controllers : ℕ
  headPosition : ℕ
  headRotation : ℕ
  deriving DecidableEq

/-- A heap object: a nested vector, a controllers array, or a
`VRSessionData` record whose nested fields are references. -/
inductive Obj where
  | vec (v : Vec3)
  | ctrls (cs : List VRControllerData)
  | session (s : SessionRefs)
  deriving DecidableEq

/-- The heap plus the `vrSessionData` field of `VRSceneManager` (a
reference to the manager's session object). -/
structure XRWorld where
  heap : List Obj
  vrSessionData : ℕ
  deriving DecidableEq

/-- Allocate a fresh object (a JavaScript object literal); its address is
the previous heap size. -/
def alloc (h : List Obj) (o : Obj) : List Obj × ℕ := (h ++ [o], h.length)

/-- Dereference a session record. -/
def readSession (h : List Obj) (a : ℕ) : SessionRefs :=
  match h.getD a (Obj.vec ⟨0, 0, 0⟩) with
  | Obj.session s => s
  | _ => ⟨false, false, 0, 0, 0⟩

/-- Dereference a nested vector. -/
def readVec (h : List Obj) (a : ℕ) : Vec3 :=
  match h.getD a (Obj.vec ⟨0, 0, 0⟩) with
  | Obj.vec v => v
  | _ => ⟨0, 0, 0⟩

/-- Dereference a controllers array. -/
def readCtrls (h : List Obj) (a : ℕ) : List VRControllerData :=
  match h.getD a (Obj.vec ⟨0, 0, 0⟩) with
  | Obj.ctrls cs => cs
  | _ => []

/-- The `VRSceneManager` constructor: `this.vrSessionData = { isActive:
false, isSupported: false, controllers: [], headPosition: {x:0,y:0,z:0},
headRotation: {x:0,y:0,z:0} }`. -/
def initXRWorld : XRWorld :=
  let (h1, ca) := alloc [] (Obj.ctrls [])
  let (h2, pa) := alloc h1 (Obj.vec ⟨0, 0, 0⟩)
  let (h3, ra) := alloc h2 (Obj.vec ⟨0, 0, 0⟩)
  let (h4, sa) := alloc h3 (Obj.session ⟨false, false, ca, pa, ra⟩)
  ⟨h4, sa⟩

/-- One JavaScript assignment `this.vrSessionData.<field> = <literal>`:
allocate the object literal, then update the named field of the session
object that `this.vrSessionData` references. -/
def assignField (w : XRWorld) (upd : SessionRefs → ℕ → SessionRefs) (o : Obj) : XRWorld :=
  let (h1, a) := alloc w.heap o
  let s1 := upd (readSession h1 w.vrSessionData) a
  ⟨h1.set w.vrSessionData (Obj.session s1), w.vrSessionData⟩

/-- One tick of the `startHeadTracking` interval callback: each of
`headPosition`, `headRotation` and `controllers` is replaced by a freshly
allocated object built from the XR runtime's current (already rounded and
converted) pose data, passed in here as parameters. -/
def trackingTick (pos rot : Vec3) (cs : List VRControllerData) (w : XRWorld) : XRWorld :=
  let w1 := assignField w (fun s a => { s with headPosition := a }) (Obj.vec pos)
  let w2 := assignField w1 (fun s a => { s with headRotation := a }) (Obj.vec rot)
  assignField w2 (fun s a => { s with controllers := a }) (Obj.ctrls cs)

/-- `stopHeadTracking`: resets the tracking data by assigning freshly
allocated zero objects to the three nested fields (the interval itself is
not part of the data model). -/
def stopHeadTracking (w : XRWorld) : XRWorld :=
  let w1 := assignField w (fun s a => { s with headPosition := a }) (Obj.vec ⟨0, 0, 0⟩)
  let w2 := assignField w1 (fun s a => { s with headRotation := a }) (Obj.vec ⟨0, 0, 0⟩)
  assignField w2 (fun s a => { s with controllers := a }) (Obj.ctrls [])

/-- `this.vrSessionData.isActive = ...` in the XR state-change handler. -/
def setIsActive (b : Bool) (w : XRWorld) : XRWorld :=
  let s := readSession w.heap w.vrSessionData
  ⟨w.heap.set w.vrSessionData (Obj.session { s with isActive := b }), w.vrSessionData⟩

/-- `this.vrSessionData.isSupported = ...` in `setupVR`. -/
def setIsSupported (b : Bool) (w : XRWorld) : XRWorld :=
  let s := readSession w.heap w.vrSessionData
  ⟨w.heap.set w.vrSessionData (Obj.session { s with isSupported := b }), w.vrSessionData⟩

/-- `getVRSessionData(): return { ...this.vrSessionData }` — allocates a
fresh top-level record copying the five fields (the three nested fields
are copied as references), and returns its address. -/
def getVRSessionData (w : XRWorld) : XRWorld × ℕ :=
  let s := readSession w.heap w.vrSessionData
  let (h1, a) := alloc w.heap (Obj.session s)
  (⟨h1, w.vrSessionData⟩, a)

/-- An in-place mutation of a nested vector object, e.g.
`snapshot.headPosition.x = 5` performed by a consumer of a returned
snapshot. -/
def writeVec (h : List Obj) (a : ℕ) (v : Vec3) : List Obj :=
  h.set a (Obj.vec v)

/-- The mutations of the core tracking state that `VRSceneManager` itself
performs after construction: tracking ticks, the session-end reset, and
the two scalar-flag writes. -/
inductive CoreStep : XRWorld → XRWorld → Prop
  | tick (pos rot : Vec3) (cs : List VRControllerData) (w : XRWorld) :
      CoreStep w (trackingTick pos rot cs w)
  | stop (w : XRWorld) : CoreStep w (stopHeadTracking w)
  | active (b : Bool) (w : XRWorld) : CoreStep w (setIsActive b w)
  | supported (b : Bool) (w : XRWorld) : CoreStep w (setIsSupported b w)

/-- Any finite sequence of core mutations. -/
def CoreSteps : XRWorld → XRWorld → Prop := Relation.ReflTransGen CoreStep

/-! ## Generic list helper lemmas -/

lemma getD_map_range {α : Type} (f : ℕ → α) {n i : ℕ} (hi : i < n) (d : α) :
    ((List.range n).map f).getD i d = f i := by
  rw [List.getD_eq_getElem?_getD]
  simp [List.getElem?_map, List.getElem?_range hi]

lemma getD_set_self {α : Type} (l : List α) {i : ℕ} (hi : i < l.length) (v d : α) :
    (l.set i v).getD i d = v := by
  rw [List.getD_eq_getElem?_getD]
  simp [List.getElem?_set_self, hi]

lemma getD_set_ne {α : Type} (l : List α) {i j : ℕ} (hij : i ≠ j) (v d : α) :
    (l.set i v).getD j d = l.getD j d := by
  rw [List.getD_eq_getElem?_getD, List.getD_eq_getElem?_getD, List.getElem?_set_ne hij]

lemma getD_eq_get {α : Type} (l : List α) {i : ℕ} (hi : i < l.length) (d : α) :
    l.getD i d = l.get ⟨i, hi⟩ := by
  rw [List.getD_eq_getElem?_getD, List.getElem?_eq_getElem hi]
  simp [List.get_eq_getElem]

/-! ## Range bounds for the smoothing pipeline -/

lemma normalizedBand_nonneg (freq : List ℕ) (bandsPerBar i : ℕ) :
    0 ≤ normalizedBand freq bandsPerBar i := by
  unfold normalizedBand
  have hsum : 0 ≤ (((freq.drop (i * bandsPerBar)).take
      (min (i * bandsPerBar + bandsPerBar) freq.length - i * bandsPerBar)).map
      (fun b : ℕ => (b : ℚ))).sum := by
    apply List.sum_nonneg
    intro x hx
    obtain ⟨m, _, rfl⟩ := List.mem_map.mp hx
    exact Nat.cast_nonneg m
  rcases le_or_lt (min (i * bandsPerBar + bandsPerBar) freq.length) (i * bandsPerBar)
    with hle | hlt
  · have h0 : min (i * bandsPerBar + bandsPerBar) freq.length - i * bandsPerBar = 0 :=
      Nat.sub_eq_zero_of_le hle
    simp only [h0, List.take_zero, List.map_nil, List.sum_nil, zero_div]
    norm_num
  · have hden : (0 : ℚ) <
        ((min (i * bandsPerBar + bandsPerBar) freq.length : ℕ) : ℚ) - ((i * bandsPerBar : ℕ) : ℚ) := by
      have := (Nat.cast_lt (α := ℚ)).mpr hlt
      linarith
    have havg : 0 ≤ (((freq.drop (i * bandsPerBar)).take
        (min (i * bandsPerBar + bandsPerBar) freq.length - i * bandsPerBar)).map
        (fun b : ℕ => (b : ℚ))).sum /
        (((min (i * bandsPerBar + bandsPerBar) freq.length : ℕ) : ℚ) - ((i * bandsPerBar : ℕ) : ℚ)) :=
      div_nonneg hsum (le_of_lt hden)
    have : (0:ℚ) ≤ (((freq.drop (i * bandsPerBar)).take
        (min (i * bandsPerBar + bandsPerBar) freq.length - i * bandsPerBar)).map
        (fun b : ℕ => (b : ℚ))).sum /
        (((min (i * bandsPerBar + bandsPerBar) freq.length : ℕ) : ℚ) - ((i * bandsPerBar : ℕ) : ℚ))
        / 255 * (5/2) := mul_nonneg (div_nonneg havg (by norm_num)) (by norm_num)
    exact le_min this (by norm_num)

lemma normalizedBand_le_one (freq : List ℕ) (bandsPerBar i : ℕ) :
    normalizedBand freq bandsPerBar i ≤ 1 := by
  unfold normalizedBand
  exact min_le_right _ _

lemma processBand_nonneg (freq : List ℕ) (bandsPerBar i : ℕ) {old : ℚ} (h0 : 0 ≤ old) :
    0 ≤ processBand freq bandsPerBar i old := by
  unfold processBand
  have := normalizedBand_nonneg freq bandsPerBar i
  nlinarith

lemma processBand_le_one (freq : List ℕ) (bandsPerBar i : ℕ) {old : ℚ} (h1 : old ≤ 1) :
    processBand freq bandsPerBar i old ≤ 1 := by
  unfold processBand
  have := normalizedBand_le_one freq bandsPerBar i
  nlinarith

/-! ## The reachability invariant -/

lemma inv_init (n : ℕ) (mh : ℚ) : Inv n (initAudioState n mh) := by
  constructor
  · rfl
  · simp [initAudioState]
  · intro x hx
    simp only [initAudioState, List.mem_replicate] at hx
    simp [hx.2]
  · simp [initAudioState, initializeParticlePool]
  · intro j hj
    simp only [initAudioState, initializeParticlePool, List.length_map,
      List.length_range] at hj ⊢
    simp [List.get_eq_getElem, List.getElem_map, List.getElem_range, initParticle]
  · intro p hp
    simp only [initAudioState, initializeParticlePool, List.mem_map] at hp
    obtain ⟨i, _, rfl⟩ := hp
    simp [initParticle]
  · simp [initAudioState]

lemma updateParticle_cylinderIndex (dt : ℚ) (p : ParticleData) :
    (updateParticle dt p).cylinderIndex = p.cylinderIndex := by
  unfold updateParticle
  split
  · rfl
  · dsimp only
    split <;> rfl

lemma updateParticle_inactive (dt : ℚ) {p : ParticleData}
    (h : p.active = false → p.enabled = false) :
    (updateParticle dt p).active = false → (updateParticle dt p).enabled = false := by
  unfold updateParticle
  split
  · exact h
  · rename_i hact
    have hact' : p.active = true := by revert hact; cases p.active <;> simp
    dsimp only
    split
    · intro _; rfl
    · intro hfalse
      rw [hact'] at hfalse
      exact absurd hfalse (by simp)

lemma emitUpdate_cylinderIndex (bar : SpectrumBar) (rnd : Rnd) (p : ParticleData) :
    (emitUpdate bar rnd p).cylinderIndex = p.cylinderIndex := rfl

lemma getInactiveParticle_lt {c : ℕ} {l : List ParticleData} {j : ℕ}
    (h : getInactiveParticle c l = some j) : j < l.length := by
  induction l generalizing j with
  | nil => simp [getInactiveParticle] at h
  | cons p rest ih =>
      unfold getInactiveParticle at h
      split at h
      · cases h
        simp
      · obtain ⟨k, hk, rfl⟩ := Option.map_eq_some'.mp h
        have := ih hk
        simp only [List.length_cons]
        omega

lemma getInactiveParticle_spec {c : ℕ} {l : List ParticleData} {j : ℕ}
    (h : getInactiveParticle c l = some j) :
    ∃ hj : j < l.length, (l.get ⟨j, hj⟩).active = false ∧
      (l.get ⟨j, hj⟩).cylinderIndex = c := by
  induction l generalizing j with
  | nil => simp [getInactiveParticle] at h
  | cons p rest ih =>
      unfold getInactiveParticle at h
      split at h
      · rename_i hcond
        cases h
        simp only [Bool.and_eq_true, Bool.not_eq_true', beq_iff_eq] at hcond
        exact ⟨by simp, hcond.1, hcond.2⟩
      · obtain ⟨k, hk, rfl⟩ := Option.map_eq_some'.mp h
        obtain ⟨hklt, hk1, hk2⟩ := ih hk
        refine ⟨by simpa using Nat.succ_lt_succ hklt, ?_, ?_⟩ <;> simpa

lemma getInactiveParticle_none {c : ℕ} {l : List ParticleData}
    (h : ∀ p ∈ l, ¬(p.active = false ∧ p.cylinderIndex = c)) :
    getInactiveParticle c l = none := by
  induction l with
  | nil => rfl
  | cons p rest ih =>
      have hcond : (!p.active && p.cylinderIndex == c) = false := by
        by_contra hc
        rw [Bool.not_eq_false, Bool.and_eq_true, Bool.not_eq_true', beq_iff_eq] at hc
        exact h p (by simp) ⟨hc.1, hc.2⟩
      unfold getInactiveParticle
      rw [hcond]
      simp only [Bool.false_eq_true, if_false]
      rw [ih fun q hq => h q (by simp [hq])]
      rfl

lemma inv_processFrequencyBands {n : ℕ} {s : AudioState} (hInv : Inv n s)
    (freq : List ℕ) : Inv n (processFrequencyBands freq s) := by
  obtain ⟨hb, hsl, hsr, hpl, hpc, hid, htl⟩ := hInv
  refine ⟨hb, ?_, ?_, hpl, hpc, hid, htl⟩
  · simp [processFrequencyBands, hb]
  · intro x hx
    simp only [processFrequencyBands, List.mem_map, List.mem_range] at hx
    obtain ⟨i, hi, rfl⟩ := hx
    have hold : 0 ≤ s.smoothedData.getD i 0 ∧ s.smoothedData.getD i 0 ≤ 1 := by
      have hilen : i < s.smoothedData.length := by rw [hsl]; exact hb ▸ hi
      rw [getD_eq_get _ hilen]
      exact hsr _ (List.get_mem _ _ _)
    exact ⟨processBand_nonneg _ _ _ hold.1, processBand_le_one _ _ _ hold.2⟩

lemma inv_updateSpectrumBars {n : ℕ} {s : AudioState} (hInv : Inv n s) :
    Inv n (updateSpectrumBars s) := by
  obtain ⟨hb, hsl, hsr, hpl, hpc, hid, htl⟩ := hInv
  exact ⟨hb, hsl, hsr, hpl, hpc, hid, htl⟩

lemma inv_updateParticles {n : ℕ} {s : AudioState} (hInv : Inv n s) (dt : ℚ) :
    Inv n (updateParticles dt s) := by
  obtain ⟨hb, hsl, hsr, hpl, hpc, hid, htl⟩ := hInv
  refine ⟨hb, hsl, hsr, ?_, ?_, ?_, htl⟩
  · simpa [updateParticles] using hpl
  · intro j hj
    simp only [updateParticles, List.length_map] at hj
    simp only [updateParticles, List.get_eq_getElem, List.getElem_map]
    rw [updateParticle_cylinderIndex]
    exact hpc j hj
  · intro p hp
    simp only [updateParticles, List.mem_map] at hp
    obtain ⟨q, hq, rfl⟩ := hp
    exact updateParticle_inactive dt (hid q hq)

lemma inv_emitParticle {n : ℕ} {s : AudioState} (hInv : Inv n s)
    (c : ℕ) (intensity : ℚ) (rnd : Rnd) : Inv n (emitParticle c intensity rnd s) := by
  obtain ⟨hb, hsl, hsr, hpl, hpc, hid, htl⟩ := hInv
  unfold emitParticle
  split
  · exact ⟨hb, hsl, hsr, hpl, hpc, hid, htl⟩
  · rename_i j hj
    have hjlt : j < s.particlePool.length := getInactiveParticle_lt hj
    refine ⟨hb, hsl, hsr, by simpa using hpl, ?_, ?_, htl⟩
    · intro k hk
      simp only [List.length_set] at hk
      simp only [List.get_eq_getElem]
      rcases eq_or_ne j k with rfl | hne
      · rw [List.getElem_set_self]
        rw [emitUpdate_cylinderIndex, getD_eq_get _ hjlt]
        exact hpc j hjlt
      · rw [List.getElem_set_ne hne]
        exact hpc k hk
    · intro p hp
      rcases List.mem_or_eq_of_mem_set hp with hmem | rfl
      · exact hid p hmem
      · intro hfalse
        simp [emitUpdate] at hfalse

lemma emitParticle_timers (c : ℕ) (intensity : ℚ) (rnd : Rnd) (s : AudioState) :
    (emitParticle c intensity rnd s).particleEmissionTimers =
      s.particleEmissionTimers := by
  unfold emitParticle
  split <;> rfl

lemma inv_emissionStep {n : ℕ} {s : AudioState} (hInv : Inv n s)
    (dt : ℚ) (rnds : ℕ → Rnd) (i : ℕ) : Inv n (emissionStep dt rnds i s) := by
  have hset : Inv n { s with particleEmissionTimers :=
      s.particleEmissionTimers.set i (s.particleEmissionTimers.getD i 0 - dt) } := by
    obtain ⟨hb, hsl, hsr, hpl, hpc, hid, htl⟩ := hInv
    exact ⟨hb, hsl, hsr, hpl, hpc, hid, by simpa using htl⟩
  unfold emissionStep
  dsimp only
  split
  · have hemit := inv_emitParticle hset i (s.smoothedData.getD i 0) (rnds i)
    obtain ⟨hb, hsl, hsr, hpl, hpc, hid, htl⟩ := hemit
    exact ⟨hb, hsl, hsr, hpl, hpc, hid, by simpa using htl⟩
  · exact hset

lemma inv_updateParticleEmission {n : ℕ} {s : AudioState} (hInv : Inv n s)
    (dt : ℚ) (rnds : ℕ → Rnd) : Inv n (updateParticleEmission dt rnds s) := by
  unfold updateParticleEmission
  generalize List.range s.bandCount = l
  induction l generalizing s with
  | nil => exact hInv
  | cons i rest ih =>
      simp only [List.foldl_cons]
      exact ih (inv_emissionStep hInv dt rnds i)

lemma inv_step {n : ℕ} {s s' : AudioState} (hInv : Inv n s) (h : Step s s') :
    Inv n s' := by
  cases h with
  | process freq _ _ => exact inv_processFrequencyBands hInv freq
  | bars _ => exact inv_updateSpectrumBars hInv
  | particles dt _ => exact inv_updateParticles hInv dt
  | emission dt rnds _ => exact inv_updateParticleEmission hInv dt rnds
  | burst c intensity rnd _ => exact inv_emitParticle hInv c intensity rnd

lemma reachable_inv {n : ℕ} {mh : ℚ} {s : AudioState}
    (h : Reachable n mh s) : Inv n s := by
  induction h with
  | refl => exact inv_init n mh
  | tail _ hstep ih => exact inv_step ih hstep

/-! ## Claim C1 -/

lemma processFrequencyBands_getD {freq : List ℕ} {s : AudioState} {i : ℕ}
    (hi : i < s.bandCount) :
    (processFrequencyBands freq s).smoothedData.getD i 0 =
      processBand freq (freq.length / s.bandCount) i (s.smoothedData.getD i 0) := by
  unfold processFrequencyBands
  dsimp only
  exact getD_map_range _ hi 0

/-- C1: for every frequency sample and every band count `n > 0` not
exceeding the sample length, one band-processing step updates band
`i < n` to `smoothed[i]*0.7 + normalized*0.3`, where `normalized =
min((mean/255)*2.5, 1)` and `mean` is the arithmetic mean of the `i`-th
contiguous group of `floor(sampleLength/n)` bins. -/
theorem C1_band_processing_update (freq : List ℕ) (s : AudioState) (n : ℕ)
    (hn : s.bandCount = n) (h0 : 0 < n) (hlen : n ≤ freq.length)
    (i : ℕ) (hi : i < n) :
    (processFrequencyBands freq s).smoothedData.getD i 0 =
      s.smoothedData.getD i 0 * (7/10) +
      min (((((freq.drop (i * (freq.length / n))).take (freq.length / n)).map
        (fun b : ℕ => (b : ℚ))).sum / ((freq.length / n : ℕ) : ℚ) / 255) * (5/2)) 1
        * (3/10) := by
  subst hn
  rw [processFrequencyBands_getD hi]
  unfold processBand normalizedBand
  dsimp only
  have hmul : (i + 1) * (freq.length / s.bandCount) ≤ freq.length := by
    calc (i + 1) * (freq.length / s.bandCount)
        ≤ s.bandCount * (freq.length / s.bandCount) :=
          Nat.mul_le_mul_right _ hi
      _ ≤ freq.length := by
          rw [Nat.mul_comm]
          exact Nat.div_mul_le_self _ _
  have hend : min (i * (freq.length / s.bandCount) + freq.length / s.bandCount)
      freq.length = i * (freq.length / s.bandCount) + freq.length / s.bandCount := by
    apply min_eq_left
    calc i * (freq.length / s.bandCount) + freq.length / s.bandCount
        = (i + 1) * (freq.length / s.bandCount) := by ring
      _ ≤ freq.length := hmul
  rw [hend]
  have hsub : i * (freq.length / s.bandCount) + freq.length / s.bandCount -
      i * (freq.length / s.bandCount) = freq.length / s.bandCount :=
    Nat.add_sub_cancel_left _ _
  rw [hsub]
  have hden : ((i * (freq.length / s.bandCount) + freq.length / s.bandCount : ℕ) : ℚ) -
      ((i * (freq.length / s.bandCount) : ℕ) : ℚ) = ((freq.length / s.bandCount : ℕ) : ℚ) := by
    push_cast
    ring
  rw [hden]

/-- Witness for C1 at a concrete sample and state. -/
theorem C1_band_processing_update_witness :
    (processFrequencyBands [10, 20] (initAudioState 2 0)).smoothedData.getD 0 0 =
      (initAudioState 2 0).smoothedData.getD 0 0 * (7/10) +
      min ((((([10, 20].drop (0 * ([10, 20].length / 2))).take ([10, 20].length / 2)).map
        (fun b : ℕ => (b : ℚ))).sum / (([10, 20].length / 2 : ℕ) : ℚ) / 255) * (5/2)) 1
        * (3/10) :=
  C1_band_processing_update [10, 20] (initAudioState 2 0) 2 rfl (by norm_num)
    (by norm_num) 0 (by norm_num)

/-! ## Claim C2 -/

/-- C2 counterexample: the claim as stated quantifies over every band
count and every sample, but when the band count exceeds the sample length
the source computes `bandsPerBar = 0`, so every bin group is empty and the
per-band value is `0/0 = NaN` in JavaScript — modelled by `jsBandValue`
returning `none` — which is not a value within `[0,1]`.  Concretely: with
band count 3 (> 0) and the two-bin byte sample `[0, 0]`, the very first
band-processing step from the all-zero constructor state stores NaN in
band 0. -/
theorem C2_nan_counterexample :
    0 < 3 ∧ ([0, 0] : List ℕ).length < 3 ∧
    jsBandValue [0, 0] (([0, 0] : List ℕ).length / 3) 0
      ((initAudioState 3 0).smoothedData.getD 0 0) = none ∧
    ∀ q : ℚ, 0 ≤ q → q ≤ 1 →
      jsBandValue [0, 0] (([0, 0] : List ℕ).length / 3) 0
        ((initAudioState 3 0).smoothedData.getD 0 0) ≠ some q := by
  refine ⟨by norm_num, by norm_num, by decide, fun q _ _ hq => ?_⟩
  rw [show jsBandValue [0, 0] (([0, 0] : List ℕ).length / 3) 0
      ((initAudioState 3 0).smoothedData.getD 0 0) = none by decide] at hq
  exact Option.noConfusion hq

/-- C2 (amended): for every band count `n > 0` and every sequence of
frequency samples whose lengths are at least `n`, running the
band-processing step over the samples from the all-zero constructor state
always yields exactly `n` smoothed values, each within `[0,1]`; moreover
on every such sample the computation is NaN-free — for each band the
JavaScript float value (`jsBandValue`) is precisely the exact-arithmetic
`processBand` value, never NaN.  (For a sample shorter than `n` bands the
code stores NaN instead — see the counterexample.) -/
theorem C2_band_count_and_range_amended (n : ℕ) (mh : ℚ) (h0 : 0 < n)
    (samples : List (List ℕ)) (hlen : ∀ f ∈ samples, n ≤ f.length) :
    ((samples.foldl (fun st f => processFrequencyBands f st)
        (initAudioState n mh)).smoothedData.length = n ∧
      ∀ x ∈ (samples.foldl (fun st f => processFrequencyBands f st)
        (initAudioState n mh)).smoothedData, 0 ≤ x ∧ x ≤ 1) ∧
    (∀ (freq : List ℕ) (i : ℕ) (old : ℚ), n ≤ freq.length → i < n →
      jsBandValue freq (freq.length / n) i old =
        some (processBand freq (freq.length / n) i old)) := by
  constructor
  · have hfold : ∀ (fs : List (List ℕ)) (st : AudioState), Inv n st →
        Inv n (fs.foldl (fun st f => processFrequencyBands f st) st) := by
      intro fs
      induction fs with
      | nil => exact fun st hInv => hInv
      | cons f rest ih =>
          intro st hInv
          simp only [List.foldl_cons]
          exact ih _ (inv_processFrequencyBands hInv f)
    have hInv := hfold samples (initAudioState n mh) (inv_init n mh)
    exact ⟨hInv.sdLen, hInv.sdRange⟩
  · intro freq i old hlenf hi
    have hbpb : 1 ≤ freq.length / n := (Nat.one_le_div_iff h0).mpr hlenf
    have hmul : (i + 1) * (freq.length / n) ≤ freq.length := by
      calc (i + 1) * (freq.length / n)
          ≤ n * (freq.length / n) := Nat.mul_le_mul_right _ hi
        _ ≤ freq.length := by
            rw [Nat.mul_comm]
            exact Nat.div_mul_le_self _ _
    have hend : min (i * (freq.length / n) + freq.length / n) freq.length =
        i * (freq.length / n) + freq.length / n := by
      apply min_eq_left
      calc i * (freq.length / n) + freq.length / n
          = (i + 1) * (freq.length / n) := by ring
        _ ≤ freq.length := hmul
    unfold jsBandValue
    dsimp only
    rw [hend, Nat.add_sub_cancel_left, if_neg (by omega)]

/-- Witness for the amended C2 on a concrete in-scope sample sequence. -/
theorem C2_band_count_and_range_amended_witness :
    ((([[5, 200, 30]] : List (List ℕ)).foldl
        (fun st f => processFrequencyBands f st)
        (initAudioState 2 0)).smoothedData.length = 2 ∧
      ∀ x ∈ (([[5, 200, 30]] : List (List ℕ)).foldl
        (fun st f => processFrequencyBands f st)
        (initAudioState 2 0)).smoothedData, 0 ≤ x ∧ x ≤ 1) ∧
    (∀ (freq : List ℕ) (i : ℕ) (old : ℚ), 2 ≤ freq.length → i < 2 →
      jsBandValue freq (freq.length / 2) i old =
        some (processBand freq (freq.length / 2) i old)) :=
  C2_band_count_and_range_amended 2 0 (by norm_num) [[5, 200, 30]]
    (by intro f hf; simp only [List.mem_singleton] at hf; simp [hf])

/-! ## Claim C10 -/

/-- C10: every color produced by the three-segment gradient at a position
in `[0,1]` has all components in `[0,1]`; hence for every band count at
least 2, each bar's base color, computed in `createSpectrumBars` from the
position `i/(bandCount-1)`, has all components in `[0,1]`. -/
theorem C10_gradient_components_in_unit (p : ℚ) (hp0 : 0 ≤ p) (hp1 : p ≤ 1) :
    (0 ≤ (getCyberpunkColor p).r ∧ (getCyberpunkColor p).r ≤ 1 ∧
     0 ≤ (getCyberpunkColor p).g ∧ (getCyberpunkColor p).g ≤ 1 ∧
     0 ≤ (getCyberpunkColor p).b ∧ (getCyberpunkColor p).b ≤ 1) ∧
    ∀ n i : ℕ, 2 ≤ n → i < n →
      0 ≤ (getCyberpunkColor ((i : ℚ) / ((n : ℚ) - 1))).r ∧
      (getCyberpunkColor ((i : ℚ) / ((n : ℚ) - 1))).r ≤ 1 ∧
      0 ≤ (getCyberpunkColor ((i : ℚ) / ((n : ℚ) - 1))).g ∧
      (getCyberpunkColor ((i : ℚ) / ((n : ℚ) - 1))).g ≤ 1 ∧
      0 ≤ (getCyberpunkColor ((i : ℚ) / ((n : ℚ) - 1))).b ∧
      (getCyberpunkColor ((i : ℚ) / ((n : ℚ) - 1))).b ≤ 1 := by
  have main : ∀ q : ℚ, 0 ≤ q → q ≤ 1 →
      0 ≤ (getCyberpunkColor q).r ∧ (getCyberpunkColor q).r ≤ 1 ∧
      0 ≤ (getCyberpunkColor q).g ∧ (getCyberpunkColor q).g ≤ 1 ∧
      0 ≤ (getCyberpunkColor q).b ∧ (getCyberpunkColor q).b ≤ 1 := by
    intro q hq0 hq1
    unfold getCyberpunkColor
    split
    · rename_i hseg
      have ht0 : 0 ≤ q / (33/100) := by positivity
      have ht1 : q / (33/100) < 1 := (div_lt_one (by norm_num)).mpr hseg
      dsimp only
      refine ⟨by nlinarith, by nlinarith, by nlinarith, by nlinarith, ?_, ?_⟩ <;> norm_num
    · split
      · rename_i hseg1 hseg2
        push_neg at hseg1
        have ht0 : 0 ≤ (q - 33/100) / (33/100) :=
          div_nonneg (by linarith) (by norm_num)
        have ht1 : (q - 33/100) / (33/100) < 1 :=
          (div_lt_one (by norm_num)).mpr (by linarith)
        dsimp only
        refine ⟨by nlinarith, by nlinarith, by nlinarith, by nlinarith, ?_, ?_⟩ <;> norm_num
      · rename_i hseg1 hseg2
        push_neg at hseg1 hseg2
        have ht0 : 0 ≤ (q - 66/100) / (34/100) :=
          div_nonneg (by linarith) (by norm_num)
        have ht1 : (q - 66/100) / (34/100) ≤ 1 :=
          (div_le_one (by norm_num)).mpr (by linarith)
        dsimp only
        exact ⟨by norm_num, by norm_num, by nlinarith, by nlinarith, by nlinarith,
          by nlinarith⟩
  refine ⟨main p hp0 hp1, fun n i hn hi => ?_⟩
  have hden : (0 : ℚ) < (n : ℚ) - 1 := by
    have : (2 : ℚ) ≤ (n : ℚ) := by exact_mod_cast hn
    linarith
  have hq0 : 0 ≤ (i : ℚ) / ((n : ℚ) - 1) :=
    div_nonneg (Nat.cast_nonneg i) (le_of_lt hden)
  have hq1 : (i : ℚ) / ((n : ℚ) - 1) ≤ 1 := by
    rw [div_le_one hden]
    have : (i : ℚ) + 1 ≤ (n : ℚ) := by exact_mod_cast hi
    linarith
  exact main _ hq0 hq1

/-- Witness for C10 at a concrete position and band count. -/
theorem C10_gradient_components_in_unit_witness :
    ((0 ≤ (getCyberpunkColor (1/2)).r ∧ (getCyberpunkColor (1/2)).r ≤ 1 ∧
      0 ≤ (getCyberpunkColor (1/2)).g ∧ (getCyberpunkColor (1/2)).g ≤ 1 ∧
      0 ≤ (getCyberpunkColor (1/2)).b ∧ (getCyberpunkColor (1/2)).b ≤ 1) ∧
    ∀ n i : ℕ, 2 ≤ n → i < n →
      0 ≤ (getCyberpunkColor ((i : ℚ) / ((n : ℚ) - 1))).r ∧
      (getCyberpunkColor ((i : ℚ) / ((n : ℚ) - 1))).r ≤ 1 ∧
      0 ≤ (getCyberpunkColor ((i : ℚ) / ((n : ℚ) - 1))).g ∧
      (getCyberpunkColor ((i : ℚ) / ((n : ℚ) - 1))).g ≤ 1 ∧
      0 ≤ (getCyberpunkColor ((i : ℚ) / ((n : ℚ) - 1))).b ∧
      (getCyberpunkColor ((i : ℚ) / ((n : ℚ) - 1))).b ≤ 1) :=
  C10_gradient_components_in_unit (1/2) (by norm_num) (by norm_num)

/-! ## Claim C9 -/

lemma processFrequencyBands_bandCount (freq : List ℕ) (s : AudioState) :
    (processFrequencyBands freq s).bandCount = s.bandCount := rfl

lemma iterate_processFrequencyBands_bandCount (freq : List ℕ) (s : AudioState) (k : ℕ) :
    ((processFrequencyBands freq)^[k] s).bandCount = s.bandCount := by
  induction k with
  | zero => rfl
  | succ k ih =>
      rw [Function.iterate_succ_apply', processFrequencyBands_bandCount, ih]

/-- C9: feeding the same frequency sample (hence the same normalized input
`x`) to a band on every frame makes the smoothed value converge
geometrically to `x` with ratio `0.7`: `x` is a fixed point of the
per-band update, after `k` frames the distance to `x` is exactly
`0.7^k` times the initial distance, and the error drops below any positive
bound from some frame on. -/
theorem C9_smoothing_geometric_convergence (freq : List ℕ) (s : AudioState)
    (i : ℕ) (hi : i < s.bandCount) :
    (processBand freq (freq.length / s.bandCount) i
        (normalizedBand freq (freq.length / s.bandCount) i) =
      normalizedBand freq (freq.length / s.bandCount) i) ∧
    (∀ k : ℕ,
      |((processFrequencyBands freq)^[k] s).smoothedData.getD i 0 -
          normalizedBand freq (freq.length / s.bandCount) i| =
        (7/10)^k * |s.smoothedData.getD i 0 -
          normalizedBand freq (freq.length / s.bandCount) i|) ∧
    (∀ ε : ℚ, 0 < ε → ∃ K : ℕ, ∀ k : ℕ, K ≤ k →
      |((processFrequencyBands freq)^[k] s).smoothedData.getD i 0 -
          normalizedBand freq (freq.length / s.bandCount) i| < ε) := by
  set x := normalizedBand freq (freq.length / s.bandCount) i with hx
  have hfix : processBand freq (freq.length / s.bandCount) i x = x := by
    unfold processBand
    rw [← hx]
    ring
  have hrec : ∀ k : ℕ,
      |((processFrequencyBands freq)^[k + 1] s).smoothedData.getD i 0 - x| =
        (7/10) * |((processFrequencyBands freq)^[k] s).smoothedData.getD i 0 - x| := by
    intro k
    rw [Function.iterate_succ_apply']
    have hbc := iterate_processFrequencyBands_bandCount freq s k
    rw [processFrequencyBands_getD (by rw [hbc]; exact hi), hbc]
    unfold processBand
    rw [← hx]
    have hring : ((processFrequencyBands freq)^[k] s).smoothedData.getD i 0 * (7/10) +
        x * (3/10) - x =
        (7/10) * (((processFrequencyBands freq)^[k] s).smoothedData.getD i 0 - x) := by
      ring
    rw [hring, abs_mul, abs_of_pos (by norm_num : (0:ℚ) < 7/10)]
  have hgeo : ∀ k : ℕ,
      |((processFrequencyBands freq)^[k] s).smoothedData.getD i 0 - x| =
        (7/10)^k * |s.smoothedData.getD i 0 - x| := by
    intro k
    induction k with
    | zero => simp
    | succ k ih =>
        rw [hrec k, ih]
        ring
  refine ⟨hfix, hgeo, ?_⟩
  intro ε hε
  rcases eq_or_ne |s.smoothedData.getD i 0 - x| 0 with hzero | hnz
  · refine ⟨0, fun k _ => ?_⟩
    rw [hgeo k, hzero, mul_zero]
    exact hε
  · have hpos : 0 < |s.smoothedData.getD i 0 - x| :=
      lt_of_le_of_ne (abs_nonneg _) (Ne.symm hnz)
    obtain ⟨K, hK⟩ := exists_pow_lt_of_lt_one (div_pos hε hpos)
      (by norm_num : (7/10 : ℚ) < 1)
    refine ⟨K, fun k hk => ?_⟩
    rw [hgeo k]
    have h1 : (7/10 : ℚ)^k ≤ (7/10)^K :=
      pow_le_pow_of_le_one (by norm_num) (by norm_num) hk
    have h2 : (7/10 : ℚ)^K * |s.smoothedData.getD i 0 - x| < ε :=
      (lt_div_iff₀ hpos).mp hK
    calc (7/10 : ℚ)^k * |s.smoothedData.getD i 0 - x|
        ≤ (7/10)^K * |s.smoothedData.getD i 0 - x| :=
          mul_le_mul_of_nonneg_right h1 (abs_nonneg _)
      _ < ε := h2

/-- Witness for C9 at a concrete sample and state. -/
theorem C9_smoothing_geometric_convergence_witness :
    (processBand [200] ([200].length / (initAudioState 1 4).bandCount) 0
        (normalizedBand [200] ([200].length / (initAudioState 1 4).bandCount) 0) =
      normalizedBand [200] ([200].length / (initAudioState 1 4).bandCount) 0) ∧
    (∀ k : ℕ,
      |((processFrequencyBands [200])^[k] (initAudioState 1 4)).smoothedData.getD 0 0 -
          normalizedBand [200] ([200].length / (initAudioState 1 4).bandCount) 0| =
        (7/10)^k * |(initAudioState 1 4).smoothedData.getD 0 0 -
          normalizedBand [200] ([200].length / (initAudioState 1 4).bandCount) 0|) ∧
    (∀ ε : ℚ, 0 < ε → ∃ K : ℕ, ∀ k : ℕ, K ≤ k →
      |((processFrequencyBands [200])^[k] (initAudioState 1 4)).smoothedData.getD 0 0 -
          normalizedBand [200] ([200].length / (initAudioState 1 4).bandCount) 0| < ε) :=
  C9_smoothing_geometric_convergence [200] (initAudioState 1 4) 0 (by decide)

/-! ## Claim C3 -/

lemma countP_range_mul_div (m c : ℕ) (hm : 0 < m) :
    ∀ n : ℕ, (List.range (n * m)).countP (fun i => i / m == c) ≤ m := by
  intro n
  induction n with
  | zero => simp
  | succ n ih =>
      rw [Nat.succ_mul, List.range_add, List.countP_append]
      by_cases hc : c = n
      · have hold : (List.range (n * m)).countP (fun i => i / m == c) = 0 := by
          apply List.countP_eq_zero.mpr
          intro a ha
          rw [List.mem_range, Nat.mul_comm] at ha
          have hdiv : a / m < n := Nat.div_lt_of_lt_mul ha
          simp only [beq_iff_eq]
          rw [hc]
          exact Nat.ne_of_lt hdiv
        rw [hold, Nat.zero_add]
        calc ((List.range m).map (n * m + ·)).countP (fun i => i / m == c)
            ≤ ((List.range m).map (n * m + ·)).length := List.countP_le_length _
          _ = m := by simp
      · have hnew : ((List.range m).map (n * m + ·)).countP (fun i => i / m == c) = 0 := by
          apply List.countP_eq_zero.mpr
          intro a ha
          simp only [List.mem_map, List.mem_range] at ha
          obtain ⟨x, hx, rfl⟩ := ha
          have hdiv : (n * m + x) / m = n := by
            rw [Nat.mul_comm n m, Nat.mul_add_div hm, Nat.div_eq_of_lt hx, Nat.add_zero]
          simp only [hdiv, beq_iff_eq]
          exact fun hsym => hc hsym.symm
        rw [hnew, Nat.add_zero]
        exact ih

lemma pool_countP_cyl_le {pool : List ParticleData} {n : ℕ}
    (hlen : pool.length = n * maxParticlesPerCylinder)
    (hcyl : ∀ (j : ℕ) (hj : j < pool.length),
      (pool.get ⟨j, hj⟩).cylinderIndex = j / maxParticlesPerCylinder)
    (c : ℕ) :
    pool.countP (fun p => p.cylinderIndex == c) ≤ maxParticlesPerCylinder := by
  have hmap : pool.map (fun p => p.cylinderIndex) =
      (List.range (n * maxParticlesPerCylinder)).map
        (fun j => j / maxParticlesPerCylinder) := by
    apply List.ext_get
    · simp [hlen]
    · intro j h1 h2
      simp only [List.get_eq_getElem, List.getElem_map, List.getElem_range]
      rw [List.length_map] at h1
      have := hcyl j h1
      simpa [List.get_eq_getElem] using this
  have h1 : pool.countP (fun p => p.cylinderIndex == c) =
      (pool.map (fun p => p.cylinderIndex)).countP (fun d => d == c) := by
    rw [List.countP_map]
    rfl
  rw [h1, hmap, List.countP_map]
  exact countP_range_mul_div maxParticlesPerCylinder c (by decide) n

/-- C3: in every reachable state of the particle system, the pool holds
exactly `bandCount * 10` entries, each entry's owning band index is fixed
forever at its initialization value `floor(poolIndex / 10)` (so nothing is
ever allocated after init), and for every band index the number of active
entries owned by that band never exceeds `maxParticlesPerCylinder = 10`. -/
theorem C3_particle_pool_invariant (n : ℕ) (mh : ℚ) (s : AudioState)
    (h : Reachable n mh s) :
    s.particlePool.length = n * maxParticlesPerCylinder ∧
    (∀ (j : ℕ) (hj : j < s.particlePool.length),
      (s.particlePool.get ⟨j, hj⟩).cylinderIndex = j / maxParticlesPerCylinder) ∧
    ∀ c : ℕ,
      (s.particlePool.filter (fun p => p.active && p.cylinderIndex == c)).length ≤
        maxParticlesPerCylinder := by
  have hInv := reachable_inv h
  refine ⟨hInv.poolLen, hInv.poolCyl, fun c => ?_⟩
  rw [← List.countP_eq_length_filter]
  calc s.particlePool.countP (fun p => p.active && p.cylinderIndex == c)
      ≤ s.particlePool.countP (fun p => p.cylinderIndex == c) := by
        apply List.countP_mono_left
        intro p _ hp
        rw [Bool.and_eq_true] at hp
        exact hp.2
    _ ≤ maxParticlesPerCylinder := pool_countP_cyl_le hInv.poolLen hInv.poolCyl c

/-- Witness for C3 at the constructor state with two bands. -/
theorem C3_particle_pool_invariant_witness :
    (initAudioState 2 1).particlePool.length = 2 * maxParticlesPerCylinder ∧
    (∀ (j : ℕ) (hj : j < (initAudioState 2 1).particlePool.length),
      ((initAudioState 2 1).particlePool.get ⟨j, hj⟩).cylinderIndex =
        j / maxParticlesPerCylinder) ∧
    ∀ c : ℕ,
      ((initAudioState 2 1).particlePool.filter
        (fun p => p.active && p.cylinderIndex == c)).length ≤
        maxParticlesPerCylinder :=
  C3_particle_pool_invariant 2 1 _ Relation.ReflTransGen.refl

/-! ## Claim C4 -/

lemma updateParticle_of_inactive {dt : ℚ} {p : ParticleData}
    (h : p.active = false) : updateParticle dt p = p := by
  unfold updateParticle
  rw [h]
  rfl

lemma updateParticle_life_of_active {dt : ℚ} {p : ParticleData}
    (h : p.active = true) : (updateParticle dt p).life = p.life - dt := by
  unfold updateParticle
  rw [h]
  simp only [Bool.not_true, Bool.false_eq_true, if_false]
  split <;> rfl

lemma updateParticle_dead {dt : ℚ} {p : ParticleData}
    (h : p.active = true) (h2 : p.life - dt ≤ 0) :
    (updateParticle dt p).active = false ∧ (updateParticle dt p).enabled = false := by
  unfold updateParticle
  rw [h]
  simp only [Bool.not_true, Bool.false_eq_true, if_false]
  rw [if_pos h2]
  exact ⟨rfl, rfl⟩

lemma updateParticle_alive {dt : ℚ} {p : ParticleData}
    (h : p.active = true) (h2 : 0 < p.life - dt) :
    (updateParticle dt p).active = true := by
  unfold updateParticle
  rw [h]
  simp only [Bool.not_true, Bool.false_eq_true, if_false]
  rw [if_neg (by linarith : ¬(p.life - dt ≤ 0))]

lemma updateParticles_getD {dt : ℚ} {s : AudioState} {j : ℕ}
    (hj : j < s.particlePool.length) (d : ParticleData) :
    (updateParticles dt s).particlePool.getD j d =
      updateParticle dt (s.particlePool.get ⟨j, hj⟩) := by
  unfold updateParticles
  rw [getD_eq_get _ (by simpa using hj)]
  simp [List.get_eq_getElem, List.getElem_map]

/-- C4: for every reachable state, (i) no inactive pool entry has its mesh
enabled ("never rendered while inactive"); and for every active particle a
particle-update step with elapsed time `dt` (ii) sets its remaining life to
exactly `life - dt` — strictly smaller whenever `dt > 0` —, (iii) if the
decremented life is `≤ 0`, deactivates it and disables its mesh in the same
step, (iv) otherwise leaves it active, so the transition to inactive
happens exactly at the first crossing; and (v) an inactive particle stays
inactive (with mesh disabled) under particle updates, while the other
per-frame transitions (band processing, bar update) do not touch the pool
at all — only an emission can reactivate it. -/
theorem C4_particle_life_transition (n : ℕ) (mh : ℚ) (s : AudioState)
    (h : Reachable n mh s) :
    (∀ p ∈ s.particlePool, p.active = false → p.enabled = false) ∧
    (∀ (dt : ℚ) (j : ℕ) (hj : j < s.particlePool.length),
      (s.particlePool.get ⟨j, hj⟩).active = true →
        ((updateParticles dt s).particlePool.getD j (initParticle 0)).life =
            (s.particlePool.get ⟨j, hj⟩).life - dt ∧
          (0 < dt →
            ((updateParticles dt s).particlePool.getD j (initParticle 0)).life <
              (s.particlePool.get ⟨j, hj⟩).life)) ∧
    (∀ (dt : ℚ) (j : ℕ) (hj : j < s.particlePool.length),
      (s.particlePool.get ⟨j, hj⟩).active = true →
      (s.particlePool.get ⟨j, hj⟩).life - dt ≤ 0 →
        ((updateParticles dt s).particlePool.getD j (initParticle 0)).active = false ∧
        ((updateParticles dt s).particlePool.getD j (initParticle 0)).enabled = false) ∧
    (∀ (dt : ℚ) (j : ℕ) (hj : j < s.particlePool.length),
      (s.particlePool.get ⟨j, hj⟩).active = true →
      0 < (s.particlePool.get ⟨j, hj⟩).life - dt →
        ((updateParticles dt s).particlePool.getD j (initParticle 0)).active = true) ∧
    (∀ (dt : ℚ) (j : ℕ) (hj : j < s.particlePool.length),
      (s.particlePool.get ⟨j, hj⟩).active = false →
        ((updateParticles dt s).particlePool.getD j (initParticle 0)).active = false ∧
        ((updateParticles dt s).particlePool.getD j (initParticle 0)).enabled = false) ∧
    (∀ freq : List ℕ, (processFrequencyBands freq s).particlePool = s.particlePool) ∧
    ((updateSpectrumBars s).particlePool = s.particlePool) := by
  have hInv := reachable_inv h
  refine ⟨hInv.inactiveDisabled, ?_, ?_, ?_, ?_, fun _ => rfl, rfl⟩
  · intro dt j hj hact
    rw [updateParticles_getD hj, updateParticle_life_of_active hact]
    exact ⟨rfl, fun hdt => by linarith⟩
  · intro dt j hj hact hdead
    rw [updateParticles_getD hj]
    exact updateParticle_dead hact hdead
  · intro dt j hj hact halive
    rw [updateParticles_getD hj]
    exact updateParticle_alive hact halive
  · intro dt j hj hinact
    rw [updateParticles_getD hj, updateParticle_of_inactive hinact]
    exact ⟨hinact, hInv.inactiveDisabled _ (List.get_mem _ _ _) hinact⟩

/-- Witness for C4 at the constructor state with one band. -/
theorem C4_particle_life_transition_witness :
    (∀ p ∈ (initAudioState 1 0).particlePool, p.active = false → p.enabled = false) ∧
    (∀ (dt : ℚ) (j : ℕ) (hj : j < (initAudioState 1 0).particlePool.length),
      ((initAudioState 1 0).particlePool.get ⟨j, hj⟩).active = true →
        ((updateParticles dt (initAudioState 1 0)).particlePool.getD j
            (initParticle 0)).life =
            ((initAudioState 1 0).particlePool.get ⟨j, hj⟩).life - dt ∧
          (0 < dt →
            ((updateParticles dt (initAudioState 1 0)).particlePool.getD j
                (initParticle 0)).life <
              ((initAudioState 1 0).particlePool.get ⟨j, hj⟩).life)) ∧
    (∀ (dt : ℚ) (j : ℕ) (hj : j < (initAudioState 1 0).particlePool.length),
      ((initAudioState 1 0).particlePool.get ⟨j, hj⟩).active = true →
      ((initAudioState 1 0).particlePool.get ⟨j, hj⟩).life - dt ≤ 0 →
        ((updateParticles dt (initAudioState 1 0)).particlePool.getD j
            (initParticle 0)).active = false ∧
        ((updateParticles dt (initAudioState 1 0)).particlePool.getD j
            (initParticle 0)).enabled = false) ∧
    (∀ (dt : ℚ) (j : ℕ) (hj : j < (initAudioState 1 0).particlePool.length),
      ((initAudioState 1 0).particlePool.get ⟨j, hj⟩).active = true →
      0 < ((initAudioState 1 0).particlePool.get ⟨j, hj⟩).life - dt →
        ((updateParticles dt (initAudioState 1 0)).particlePool.getD j
            (initParticle 0)).active = true) ∧
    (∀ (dt : ℚ) (j : ℕ) (hj : j < (initAudioState 1 0).particlePool.length),
      ((initAudioState 1 0).particlePool.get ⟨j, hj⟩).active = false →
        ((updateParticles dt (initAudioState 1 0)).particlePool.getD j
            (initParticle 0)).active = false ∧
        ((updateParticles dt (initAudioState 1 0)).particlePool.getD j
            (initParticle 0)).enabled = false) ∧
    (∀ freq : List ℕ,
      (processFrequencyBands freq (initAudioState 1 0)).particlePool =
        (initAudioState 1 0).particlePool) ∧
    ((updateSpectrumBars (initAudioState 1 0)).particlePool =
      (initAudioState 1 0).particlePool) :=
  C4_particle_life_transition 1 0 _ Relation.ReflTransGen.refl

/-! ## Claim C5 -/

lemma emitParticle_smoothedData (c : ℕ) (it : ℚ) (rnd : Rnd) (s : AudioState) :
    (emitParticle c it rnd s).smoothedData = s.smoothedData := by
  cases hgi : getInactiveParticle c s.particlePool with
  | none => simp [emitParticle, hgi]
  | some j => simp [emitParticle, hgi]

lemma emitParticle_pool_timers_irrelevant (c : ℕ) (it : ℚ) (rnd : Rnd)
    (s : AudioState) (t : List ℚ) :
    (emitParticle c it rnd { s with particleEmissionTimers := t }).particlePool =
      (emitParticle c it rnd s).particlePool := by
  cases hgi : getInactiveParticle c s.particlePool with
  | none => simp [emitParticle, hgi]
  | some j => simp [emitParticle, hgi]

lemma emissionStep_smoothedData (dt : ℚ) (rnds : ℕ → Rnd) (i : ℕ) (s : AudioState) :
    (emissionStep dt rnds i s).smoothedData = s.smoothedData := by
  unfold emissionStep
  dsimp only
  split
  · rw [emitParticle_smoothedData]
  · rfl

lemma emissionStep_timers_len (dt : ℚ) (rnds : ℕ → Rnd) (i : ℕ) (s : AudioState) :
    (emissionStep dt rnds i s).particleEmissionTimers.length =
      s.particleEmissionTimers.length := by
  unfold emissionStep
  dsimp only
  split
  · rw [List.length_set, emitParticle_timers]
    simp
  · simp

lemma emissionStep_timers_getD_ne (dt : ℚ) (rnds : ℕ → Rnd) {i k : ℕ}
    (hik : i ≠ k) (s : AudioState) :
    (emissionStep dt rnds i s).particleEmissionTimers.getD k 0 =
      s.particleEmissionTimers.getD k 0 := by
  unfold emissionStep
  dsimp only
  split
  · rw [getD_set_ne _ hik, emitParticle_timers]
    exact getD_set_ne _ hik _ _
  · exact getD_set_ne _ hik _ _

lemma emissionStep_timer_fired (dt : ℚ) (rnds : ℕ → Rnd) {i : ℕ} {s : AudioState}
    (hlen : i < s.particleEmissionTimers.length)
    (hfire : s.particleEmissionTimers.getD i 0 - dt ≤ 0) :
    (emissionStep dt rnds i s).particleEmissionTimers.getD i 0 =
      min (3/10) (max (1/20) (3/10 - s.smoothedData.getD i 0 * (1/4))) ∧
    (emissionStep dt rnds i s).particlePool =
      (emitParticle i (s.smoothedData.getD i 0) (rnds i) s).particlePool := by
  unfold emissionStep
  dsimp only
  rw [if_pos hfire]
  constructor
  · have hlen2 : i < (emitParticle i (s.smoothedData.getD i 0) (rnds i) { s with particleEmissionTimers := s.particleEmissionTimers.set i (s.particleEmissionTimers.getD i 0 - dt) }).particleEmissionTimers.length := by
      rw [emitParticle_timers]
      simpa using hlen
    exact getD_set_self _ hlen2 _ _
  · exact emitParticle_pool_timers_irrelevant _ _ _ _ _

lemma foldl_emissionStep_ne (dt : ℚ) (rnds : ℕ → Rnd) (i : ℕ) :
    ∀ (js : List ℕ) (s : AudioState), (∀ j ∈ js, j ≠ i) →
      ((js.foldl (fun st j => emissionStep dt rnds j st) s).particleEmissionTimers.getD
          i 0 = s.particleEmissionTimers.getD i 0) ∧
      ((js.foldl (fun st j => emissionStep dt rnds j st) s).smoothedData =
        s.smoothedData) ∧
      ((js.foldl (fun st j => emissionStep dt rnds j st) s).particleEmissionTimers.length
        = s.particleEmissionTimers.length) := by
  intro js
  induction js with
  | nil => exact fun s _ => ⟨rfl, rfl, rfl⟩
  | cons j rest ih =>
      intro s hne
      simp only [List.foldl_cons]
      obtain ⟨h1, h2, h3⟩ := ih (emissionStep dt rnds j s)
        (fun k hk => hne k (by simp [hk]))
      refine ⟨?_, ?_, ?_⟩
      · rw [h1, emissionStep_timers_getD_ne dt rnds (hne j (by simp)) s]
      · rw [h2, emissionStep_smoothedData]
      · rw [h3, emissionStep_timers_len]

lemma range_split (n i : ℕ) (hi : i < n) :
    List.range n =
      List.range i ++ i :: ((List.range (n - i - 1)).map (fun x => i + (x + 1))) := by
  conv_lhs => rw [show n = i + (n - i) by omega]
  rw [List.range_add]
  congr 1
  rw [show n - i = (n - i - 1) + 1 by omega, List.range_succ_eq_map]
  simp only [List.map_cons, List.map_map, Nat.add_zero]
  simp [Function.comp_def, Nat.succ_eq_add_one]

lemma updateParticleEmission_timer_getD {n : ℕ} {s : AudioState} (hInv : Inv n s)
    (dt : ℚ) (rnds : ℕ → Rnd) {i : ℕ} (hi : i < n)
    (hfire : s.particleEmissionTimers.getD i 0 - dt ≤ 0) :
    (updateParticleEmission dt rnds s).particleEmissionTimers.getD i 0 =
      min (3/10) (max (1/20) (3/10 - s.smoothedData.getD i 0 * (1/4))) := by
  unfold updateParticleEmission
  rw [hInv.bands, range_split n i hi, List.foldl_append, List.foldl_cons]
  obtain ⟨hpre1, hpre2, hpre3⟩ := foldl_emissionStep_ne dt rnds i (List.range i) s
    (fun j hj => Nat.ne_of_lt (List.mem_range.mp hj))
  set sp := (List.range i).foldl (fun st j => emissionStep dt rnds j st) s with hsp
  have hfire' : sp.particleEmissionTimers.getD i 0 - dt ≤ 0 := by
    rw [hpre1]; exact hfire
  have hlen' : i < sp.particleEmissionTimers.length := by
    rw [hpre3, hInv.timersLen]; exact hi
  obtain ⟨hstep, _⟩ := emissionStep_timer_fired dt rnds hlen' hfire'
  obtain ⟨hsuf1, _, _⟩ := foldl_emissionStep_ne dt rnds i
    ((List.range (n - i - 1)).map (fun x => i + (x + 1))) (emissionStep dt rnds i sp)
    (fun j hj => by
      obtain ⟨x, _, rfl⟩ := List.mem_map.mp hj
      omega)
  rw [hsuf1, hstep, hpre2]

/-- C5: in an emission-update step, every band whose (decremented) timer
has reached zero or below emits one particle from its pool — the pool
changes exactly as `emitParticle` changes it — and its timer is reset to
`max(0.05, 0.3 - intensity*0.25)`; that reset interval is at least `0.05`
and is monotonically non-increasing in the band's smoothed intensity. -/
theorem C5_emission_timer_reset (n : ℕ) (mh : ℚ) (s : AudioState)
    (h : Reachable n mh s) (dt : ℚ) (rnds : ℕ → Rnd) (i : ℕ) (hi : i < n)
    (hfire : s.particleEmissionTimers.getD i 0 - dt ≤ 0) :
    ((updateParticleEmission dt rnds s).particleEmissionTimers.getD i 0 =
      max (1/20) (3/10 - s.smoothedData.getD i 0 * (1/4))) ∧
    ((emissionStep dt rnds i s).particlePool =
      (emitParticle i (s.smoothedData.getD i 0) (rnds i) s).particlePool) ∧
    ((1:ℚ)/20 ≤ max (1/20) (3/10 - s.smoothedData.getD i 0 * (1/4))) ∧
    (∀ a b : ℚ, a ≤ b →
      max (1/20) (3/10 - b * (1/4)) ≤ max (1/20) (3/10 - a * (1/4))) := by
  have hInv := reachable_inv h
  have hint : 0 ≤ s.smoothedData.getD i 0 := by
    have hlen : i < s.smoothedData.length := by rw [hInv.sdLen]; exact hi
    rw [getD_eq_get _ hlen]
    exact (hInv.sdRange _ (List.get_mem _ _ _)).1
  have hcollapse : min (3/10 : ℚ)
      (max (1/20) (3/10 - s.smoothedData.getD i 0 * (1/4))) =
      max (1/20) (3/10 - s.smoothedData.getD i 0 * (1/4)) :=
    min_eq_right (max_le (by norm_num) (by linarith))
  refine ⟨?_, ?_, le_max_left _ _,
    fun a b hab => max_le_max le_rfl (by linarith)⟩
  · rw [updateParticleEmission_timer_getD hInv dt rnds hi hfire, hcollapse]
  · have hlen : i < s.particleEmissionTimers.length := by
      rw [hInv.timersLen]; exact hi
    exact (emissionStep_timer_fired dt rnds hlen hfire).2

/-- Witness for C5 at the constructor state (all timers start at 0, so any
positive elapsed time fires every band). -/
theorem C5_emission_timer_reset_witness :
    (((updateParticleEmission 1 (fun _ => ⟨0, 0, 0, 0, 0⟩)
        (initAudioState 1 0)).particleEmissionTimers.getD 0 0 =
      max (1/20) (3/10 - (initAudioState 1 0).smoothedData.getD 0 0 * (1/4))) ∧
    ((emissionStep 1 (fun _ => ⟨0, 0, 0, 0, 0⟩) 0 (initAudioState 1 0)).particlePool =
      (emitParticle 0 ((initAudioState 1 0).smoothedData.getD 0 0)
        ((fun _ => (⟨0, 0, 0, 0, 0⟩ : Rnd)) 0) (initAudioState 1 0)).particlePool) ∧
    ((1:ℚ)/20 ≤ max (1/20) (3/10 - (initAudioState 1 0).smoothedData.getD 0 0 * (1/4))) ∧
    (∀ a b : ℚ, a ≤ b →
      max (1/20) (3/10 - b * (1/4)) ≤ max (1/20) (3/10 - a * (1/4)))) :=
  C5_emission_timer_reset 1 0 _ Relation.ReflTransGen.refl 1 (fun _ => ⟨0, 0, 0, 0, 0⟩)
    0 (by norm_num) (by norm_num [initAudioState, List.replicate])

/-! ## Claim C6 -/

/-- C6: when no inactive pool entry owned by the requested band exists,
`emitParticle` is a complete no-op: the whole state — every particle,
every timer, every modelled visual field — is returned unchanged, and no
error is raised (the function is total). -/
theorem C6_pool_exhaustion_noop (c : ℕ) (intensity : ℚ) (rnd : Rnd)
    (s : AudioState)
    (h : ∀ p ∈ s.particlePool, ¬(p.active = false ∧ p.cylinderIndex = c)) :
    emitParticle c intensity rnd s = s := by
  unfold emitParticle
  rw [getInactiveParticle_none h]

/-- Witness for C6: a one-band pool has no entry owned by band 5, so an
emission request for band 5 returns the state unchanged. -/
theorem C6_pool_exhaustion_noop_witness :
    (∀ p ∈ (initAudioState 1 0).particlePool,
      ¬(p.active = false ∧ p.cylinderIndex = 5)) ∧
    emitParticle 5 (1/2) ⟨0, 0, 0, 0, 0⟩ (initAudioState 1 0) = initAudioState 1 0 :=
  ⟨by decide, C6_pool_exhaustion_noop 5 (1/2) ⟨0, 0, 0, 0, 0⟩ _ (by decide)⟩

/-! ## Claims C7 and C8: heap lemmas -/

lemma getD_append_lt {α : Type} (l1 l2 : List α) {a : ℕ} (ha : a < l1.length) (d : α) :
    (l1 ++ l2).getD a d = l1.getD a d := by
  rw [List.getD_eq_getElem?_getD, List.getD_eq_getElem?_getD, List.getElem?_append_left ha]

lemma getD_concat_length {α : Type} (l : List α) (o d : α) :
    (l ++ [o]).getD l.length d = o := by
  rw [List.getD_eq_getElem?_getD, List.getElem?_append_right le_rfl]
  simp

lemma readSession_set_session (h : List Obj) {a : ℕ} (ha : a < h.length)
    (s : SessionRefs) : readSession (h.set a (Obj.session s)) a = s := by
  unfold readSession
  rw [getD_set_self _ ha]

lemma readSession_append (h l2 : List Obj) {a : ℕ} (ha : a < h.length) :
    readSession (h ++ l2) a = readSession h a := by
  unfold readSession
  rw [getD_append_lt _ _ ha]

lemma assignField_vrSessionData (w : XRWorld) (u : SessionRefs → ℕ → SessionRefs)
    (o : Obj) : (assignField w u o).vrSessionData = w.vrSessionData := rfl

lemma assignField_heap_length (w : XRWorld) (u : SessionRefs → ℕ → SessionRefs)
    (o : Obj) : (assignField w u o).heap.length = w.heap.length + 1 := by
  simp [assignField, alloc]

lemma assignField_getD_stable (w : XRWorld) (u : SessionRefs → ℕ → SessionRefs)
    (o : Obj) {b : ℕ} (hbA : b ≠ w.vrSessionData) (hb : b < w.heap.length) (d : Obj) :
    (assignField w u o).heap.getD b d = w.heap.getD b d := by
  unfold assignField alloc
  dsimp only
  rw [getD_set_ne _ (fun h => hbA h.symm), getD_append_lt _ _ hb]

lemma assignField_getD_new (w : XRWorld) (u : SessionRefs → ℕ → SessionRefs)
    (o : Obj) (hwf : w.vrSessionData < w.heap.length) (d : Obj) :
    (assignField w u o).heap.getD w.heap.length d = o := by
  unfold assignField alloc
  dsimp only
  rw [getD_set_ne _ (Nat.ne_of_lt hwf), getD_concat_length]

lemma assignField_readSession (w : XRWorld) (u : SessionRefs → ℕ → SessionRefs)
    (o : Obj) (hwf : w.vrSessionData < w.heap.length) :
    readSession (assignField w u o).heap w.vrSessionData =
      u (readSession w.heap w.vrSessionData) w.heap.length := by
  unfold assignField alloc
  dsimp only
  rw [readSession_append _ _ hwf, readSession_set_session]
  rw [List.length_append]
  simp only [List.length_cons, List.length_nil]
  exact Nat.lt_succ_of_lt hwf

lemma assignField_readVec_stable (w : XRWorld) (u : SessionRefs → ℕ → SessionRefs)
    (o : Obj) {b : ℕ} (hbA : b ≠ w.vrSessionData) (hb : b < w.heap.length) :
    readVec (assignField w u o).heap b = readVec w.heap b := by
  unfold readVec
  rw [assignField_getD_stable w u o hbA hb]

lemma assignField_readCtrls_stable (w : XRWorld) (u : SessionRefs → ℕ → SessionRefs)
    (o : Obj) {b : ℕ} (hbA : b ≠ w.vrSessionData) (hb : b < w.heap.length) :
    readCtrls (assignField w u o).heap b = readCtrls w.heap b := by
  unfold readCtrls
  rw [assignField_getD_stable w u o hbA hb]

lemma assignField_readVec_new (w : XRWorld) (u : SessionRefs → ℕ → SessionRefs)
    (v : Vec3) (hwf : w.vrSessionData < w.heap.length) :
    readVec (assignField w u (Obj.vec v)).heap w.heap.length = v := by
  unfold readVec
  rw [assignField_getD_new w u _ hwf]

lemma assignField_readCtrls_new (w : XRWorld) (u : SessionRefs → ℕ → SessionRefs)
    (cs : List VRControllerData) (hwf : w.vrSessionData < w.heap.length) :
    readCtrls (assignField w u (Obj.ctrls cs)).heap w.heap.length = cs := by
  unfold readCtrls
  rw [assignField_getD_new w u _ hwf]

/-! ## Claim C7 -/

/-- C7: immediately after the session-end transition, the tracking
snapshot fields are all zero/empty — head position and head rotation each
dereference to `(0,0,0)` and the controller list is empty — for every
well-addressed starting world, i.e. regardless of the values immediately
before. -/
theorem C7_session_end_zeroes (w : XRWorld)
    (hwf : w.vrSessionData < w.heap.length) :
    readVec (stopHeadTracking w).heap
        (readSession (stopHeadTracking w).heap
          (stopHeadTracking w).vrSessionData).headPosition = ⟨0, 0, 0⟩ ∧
    readVec (stopHeadTracking w).heap
        (readSession (stopHeadTracking w).heap
          (stopHeadTracking w).vrSessionData).headRotation = ⟨0, 0, 0⟩ ∧
    readCtrls (stopHeadTracking w).heap
        (readSession (stopHeadTracking w).heap
          (stopHeadTracking w).vrSessionData).controllers = [] := by
  unfold stopHeadTracking
  dsimp only
  set w1 := assignField w (fun s a => { s with headPosition := a })
    (Obj.vec ⟨0, 0, 0⟩) with hw1
  set w2 := assignField w1 (fun s a => { s with headRotation := a })
    (Obj.vec ⟨0, 0, 0⟩) with hw2
  have hA1 : w1.vrSessionData = w.vrSessionData := rfl
  have hA2 : w2.vrSessionData = w.vrSessionData := rfl
  have hL1 : w1.heap.length = w.heap.length + 1 := assignField_heap_length _ _ _
  have hL2 : w2.heap.length = w.heap.length + 2 := by
    rw [hw2, assignField_heap_length, hL1]
  have hwf1 : w1.vrSessionData < w1.heap.length := by
    rw [hA1, hL1]; exact Nat.lt_succ_of_lt hwf
  have hwf2 : w2.vrSessionData < w2.heap.length := by
    rw [hA2, hL2]; omega
  have hs1 : readSession w1.heap w.vrSessionData =
      { readSession w.heap w.vrSessionData with headPosition := w.heap.length } :=
    assignField_readSession w _ _ hwf
  have hs2 : readSession w2.heap w.vrSessionData =
      { readSession w.heap w.vrSessionData with
        headPosition := w.heap.length, headRotation := w1.heap.length } := by
    rw [hw2]
    show readSession (assignField w1 _ _).heap w1.vrSessionData = _
    rw [assignField_readSession w1 _ _ hwf1, hA1, hs1]
  have hs3 : readSession
      (assignField w2 (fun s a => { s with controllers := a }) (Obj.ctrls [])).heap
      w.vrSessionData =
      { readSession w.heap w.vrSessionData with
        headPosition := w.heap.length, headRotation := w1.heap.length,
        controllers := w2.heap.length } := by
    show readSession (assignField w2 _ _).heap w2.vrSessionData = _
    rw [assignField_readSession w2 _ _ hwf2, hA2, hs2]
  refine ⟨?_, ?_, ?_⟩
  · rw [assignField_vrSessionData, hA2, hs3]
    show readVec (assignField w2 _ _).heap w.heap.length = _
    rw [assignField_readVec_stable w2 _ _ (by rw [hA2]; exact (Nat.ne_of_lt hwf).symm)
      (by rw [hL2]; omega)]
    rw [hw2]
    rw [assignField_readVec_stable w1 _ _ (by rw [hA1]; exact (Nat.ne_of_lt hwf).symm)
      (by rw [hL1]; omega)]
    exact assignField_readVec_new w _ _ hwf
  · rw [assignField_vrSessionData, hA2, hs3]
    show readVec (assignField w2 _ _).heap w1.heap.length = _
    rw [assignField_readVec_stable w2 _ _
      (by rw [hA2, hL1]; omega) (by rw [hL2, hL1]; omega)]
    rw [hw2]
    exact assignField_readVec_new w1 _ _ hwf1
  · rw [assignField_vrSessionData, hA2, hs3]
    show readCtrls (assignField w2 _ _).heap w2.heap.length = _
    exact assignField_readCtrls_new w2 _ _ hwf2

/-- Witness for C7 at the freshly constructed world. -/
theorem C7_session_end_zeroes_witness :
    readVec (stopHeadTracking initXRWorld).heap
        (readSession (stopHeadTracking initXRWorld).heap
          (stopHeadTracking initXRWorld).vrSessionData).headPosition = ⟨0, 0, 0⟩ ∧
    readVec (stopHeadTracking initXRWorld).heap
        (readSession (stopHeadTracking initXRWorld).heap
          (stopHeadTracking initXRWorld).vrSessionData).headRotation = ⟨0, 0, 0⟩ ∧
    readCtrls (stopHeadTracking initXRWorld).heap
        (readSession (stopHeadTracking initXRWorld).heap
          (stopHeadTracking initXRWorld).vrSessionData).controllers = [] :=
  C7_session_end_zeroes initXRWorld (by decide)

/-! ## Claim C8 -/

lemma setIsActive_getD_stable (b : Bool) (w : XRWorld) {c : ℕ}
    (hc : c ≠ w.vrSessionData) (d : Obj) :
    (setIsActive b w).heap.getD c d = w.heap.getD c d := by
  unfold setIsActive
  dsimp only
  exact getD_set_ne _ (fun h => hc h.symm) _ _

lemma setIsSupported_getD_stable (b : Bool) (w : XRWorld) {c : ℕ}
    (hc : c ≠ w.vrSessionData) (d : Obj) :
    (setIsSupported b w).heap.getD c d = w.heap.getD c d := by
  unfold setIsSupported
  dsimp only
  exact getD_set_ne _ (fun h => hc h.symm) _ _

/-- A single core mutation keeps the session reference, never shrinks the
heap, and leaves every live address other than the session object
untouched. -/
lemma coreStep_stable {w w' : XRWorld} (h : CoreStep w w') :
    w'.vrSessionData = w.vrSessionData ∧
    w.heap.length ≤ w'.heap.length ∧
    ∀ b : ℕ, b ≠ w.vrSessionData → b < w.heap.length →
      ∀ d : Obj, w'.heap.getD b d = w.heap.getD b d := by
  cases h with
  | tick pos rot cs w =>
      unfold trackingTick
      dsimp only
      refine ⟨rfl, ?_, ?_⟩
      · rw [assignField_heap_length, assignField_heap_length, assignField_heap_length]
        omega
      · intro b hb hlt d
        set w1 := assignField w (fun s a => { s with headPosition := a })
          (Obj.vec pos) with hw1
        set w2 := assignField w1 (fun s a => { s with headRotation := a })
          (Obj.vec rot) with hw2
        have hb1 : b ≠ w1.vrSessionData := hb
        have hb2 : b ≠ w2.vrSessionData := hb
        have hlt1 : b < w1.heap.length := by rw [hw1, assignField_heap_length]; omega
        have hlt2 : b < w2.heap.length := by
          rw [hw2, assignField_heap_length]; omega
        rw [assignField_getD_stable w2 _ _ hb2 hlt2, hw2,
          assignField_getD_stable w1 _ _ hb1 hlt1, hw1,
          assignField_getD_stable w _ _ hb hlt]
  | stop w =>
      unfold stopHeadTracking
      dsimp only
      refine ⟨rfl, ?_, ?_⟩
      · rw [assignField_heap_length, assignField_heap_length, assignField_heap_length]
        omega
      · intro b hb hlt d
        set w1 := assignField w (fun s a => { s with headPosition := a })
          (Obj.vec ⟨0, 0, 0⟩) with hw1
        set w2 := assignField w1 (fun s a => { s with headRotation := a })
          (Obj.vec ⟨0, 0, 0⟩) with hw2
        have hb1 : b ≠ w1.vrSessionData := hb
        have hb2 : b ≠ w2.vrSessionData := hb
        have hlt1 : b < w1.heap.length := by rw [hw1, assignField_heap_length]; omega
        have hlt2 : b < w2.heap.length := by
          rw [hw2, assignField_heap_length]; omega
        rw [assignField_getD_stable w2 _ _ hb2 hlt2, hw2,
          assignField_getD_stable w1 _ _ hb1 hlt1, hw1,
          assignField_getD_stable w _ _ hb hlt]
  | active b w =>
      refine ⟨rfl, ?_, fun c hc _ d => setIsActive_getD_stable b w hc d⟩
      exact (List.length_set _ _ _).ge
  | supported b w =>
      refine ⟨rfl, ?_, fun c hc _ d => setIsSupported_getD_stable b w hc d⟩
      exact (List.length_set _ _ _).ge

/-- Any finite sequence of core mutations keeps the session reference,
never shrinks the heap, and leaves every other live address untouched. -/
lemma coreSteps_stable {w w' : XRWorld} (h : CoreSteps w w') :
    w'.vrSessionData = w.vrSessionData ∧
    w.heap.length ≤ w'.heap.length ∧
    ∀ b : ℕ, b ≠ w.vrSessionData → b < w.heap.length →
      ∀ d : Obj, w'.heap.getD b d = w.heap.getD b d := by
  induction h with
  | refl => exact ⟨rfl, le_rfl, fun b _ _ d => rfl⟩
  | tail hsteps hstep ih =>
      obtain ⟨ih1, ih2, ih3⟩ := ih
      obtain ⟨s1, s2, s3⟩ := coreStep_stable hstep
      refine ⟨s1.trans ih1, ih2.trans s2, fun b hb hlt d => ?_⟩
      rw [s3 b (by rw [ih1]; exact hb) (by omega) d, ih3 b hb hlt d]

/-- C8 counterexample: `getVRSessionData` returns a shallow copy, so an
in-place mutation of the nested `headPosition` object performed through
the returned snapshot does change the core tracking state — refuting the
claim that mutations made through a returned snapshot never change it.
Concretely: on the freshly constructed world, the core head position reads
`(0,0,0)`; after writing `(1,2,3)` through the snapshot's `headPosition`
reference it reads `(1,2,3)`. -/
theorem C8_counterexample :
    readVec (getVRSessionData initXRWorld).1.heap
      (readSession (getVRSessionData initXRWorld).1.heap
        (getVRSessionData initXRWorld).1.vrSessionData).headPosition = ⟨0, 0, 0⟩ ∧
    readVec
      (writeVec (getVRSessionData initXRWorld).1.heap
        (readSession (getVRSessionData initXRWorld).1.heap
          (getVRSessionData initXRWorld).2).headPosition ⟨1, 2, 3⟩)
      (readSession
        (writeVec (getVRSessionData initXRWorld).1.heap
          (readSession (getVRSessionData initXRWorld).1.heap
            (getVRSessionData initXRWorld).2).headPosition ⟨1, 2, 3⟩)
        (getVRSessionData initXRWorld).1.vrSessionData).headPosition = ⟨1, 2, 3⟩ ∧
    readVec
      (writeVec (getVRSessionData initXRWorld).1.heap
        (readSession (getVRSessionData initXRWorld).1.heap
          (getVRSessionData initXRWorld).2).headPosition ⟨1, 2, 3⟩)
      (readSession
        (writeVec (getVRSessionData initXRWorld).1.heap
          (readSession (getVRSessionData initXRWorld).1.heap
            (getVRSessionData initXRWorld).2).headPosition ⟨1, 2, 3⟩)
        (getVRSessionData initXRWorld).1.vrSessionData).headPosition ≠
      readVec (getVRSessionData initXRWorld).1.heap
        (readSession (getVRSessionData initXRWorld).1.heap
          (getVRSessionData initXRWorld).1.vrSessionData).headPosition := by
  refine ⟨rfl, rfl, ?_⟩
  intro hcontra
  have h1 : (⟨1, 2, 3⟩ : Vec3) = (⟨0, 0, 0⟩ : Vec3) := hcontra
  simp only [Vec3.mk.injEq] at h1
  exact absurd h1.1 (by norm_num)

/-- C8 (amended): `getVRSessionData` returns a fresh top-level record —
the returned address is new and distinct from the core's, its content
equals the core's record, and writing the returned top-level object does
not change the core record; moreover the code's own subsequent mutations
(tracking ticks, session-end reset, flag writes — all of which replace
nested objects instead of mutating them) never change the top-level record
or the nested values reachable from an already-returned snapshot.  (The
nested objects themselves are shared by reference, so an in-place nested
mutation through the snapshot is visible in the core — see the
counterexample.) -/
theorem C8_snapshot_copy_semantics (w : XRWorld)
    (hwf : w.vrSessionData < w.heap.length)
    (hp : (readSession w.heap w.vrSessionData).headPosition < w.heap.length)
    (hr : (readSession w.heap w.vrSessionData).headRotation < w.heap.length)
    (hc : (readSession w.heap w.vrSessionData).controllers < w.heap.length)
    (hpA : (readSession w.heap w.vrSessionData).headPosition ≠ w.vrSessionData)
    (hrA : (readSession w.heap w.vrSessionData).headRotation ≠ w.vrSessionData)
    (hcA : (readSession w.heap w.vrSessionData).controllers ≠ w.vrSessionData) :
    ((getVRSessionData w).1.vrSessionData = w.vrSessionData) ∧
    ((getVRSessionData w).2 ≠ w.vrSessionData) ∧
    (readSession (getVRSessionData w).1.heap (getVRSessionData w).2 =
      readSession w.heap w.vrSessionData) ∧
    (∀ o : Obj,
      readSession ((getVRSessionData w).1.heap.set (getVRSessionData w).2 o)
          (getVRSessionData w).1.vrSessionData =
        readSession (getVRSessionData w).1.heap (getVRSessionData w).1.vrSessionData) ∧
    (∀ w2 : XRWorld, CoreSteps (getVRSessionData w).1 w2 →
      readSession w2.heap (getVRSessionData w).2 =
        readSession (getVRSessionData w).1.heap (getVRSessionData w).2 ∧
      readVec w2.heap (readSession w.heap w.vrSessionData).headPosition =
        readVec (getVRSessionData w).1.heap
          (readSession w.heap w.vrSessionData).headPosition ∧
      readVec w2.heap (readSession w.heap w.vrSessionData).headRotation =
        readVec (getVRSessionData w).1.heap
          (readSession w.heap w.vrSessionData).headRotation ∧
      readCtrls w2.heap (readSession w.heap w.vrSessionData).controllers =
        readCtrls (getVRSessionData w).1.heap
          (readSession w.heap w.vrSessionData).controllers) := by
  have hvr : (getVRSessionData w).1.vrSessionData = w.vrSessionData := rfl
  have haddr : (getVRSessionData w).2 = w.heap.length := rfl
  have hlen1 : (getVRSessionData w).1.heap.length = w.heap.length + 1 := by
    show (w.heap ++ [Obj.session (readSession w.heap w.vrSessionData)]).length = _
    simp
  refine ⟨hvr, ?_, ?_, ?_, ?_⟩
  · rw [haddr]
    exact (Nat.ne_of_lt hwf).symm
  · rw [haddr]
    show readSession (w.heap ++ [Obj.session (readSession w.heap w.vrSessionData)])
      w.heap.length = _
    unfold readSession
    rw [getD_concat_length]
  · intro o
    rw [hvr, haddr]
    show readSession ((w.heap ++ [Obj.session (readSession w.heap w.vrSessionData)]).set
      w.heap.length o) w.vrSessionData = _
    unfold readSession
    rw [getD_set_ne _ (Nat.ne_of_lt hwf).symm]
    rfl
  · intro w2 hsteps
    obtain ⟨st1, st2, st3⟩ := coreSteps_stable hsteps
    have hvr1 : (getVRSessionData w).1.vrSessionData = w.vrSessionData := rfl
    refine ⟨?_, ?_, ?_, ?_⟩
    · unfold readSession
      rw [st3 _ (by rw [hvr1, haddr]; exact (Nat.ne_of_lt hwf).symm)
        (by rw [hlen1, haddr]; omega) _]
    · unfold readVec
      rw [st3 _ (by rw [hvr1]; exact hpA) (by rw [hlen1]; omega) _]
    · unfold readVec
      rw [st3 _ (by rw [hvr1]; exact hrA) (by rw [hlen1]; omega) _]
    · unfold readCtrls
      rw [st3 _ (by rw [hvr1]; exact hcA) (by rw [hlen1]; omega) _]

/-- Witness for the amended C8 at the freshly constructed world. -/
theorem C8_snapshot_copy_semantics_witness :
    ((getVRSessionData initXRWorld).1.vrSessionData = initXRWorld.vrSessionData) ∧
    ((getVRSessionData initXRWorld).2 ≠ initXRWorld.vrSessionData) ∧
    (readSession (getVRSessionData initXRWorld).1.heap (getVRSessionData initXRWorld).2 =
      readSession initXRWorld.heap initXRWorld.vrSessionData) ∧
    (∀ o : Obj,
      readSession ((getVRSessionData initXRWorld).1.heap.set
          (getVRSessionData initXRWorld).2 o)
          (getVRSessionData initXRWorld).1.vrSessionData =
        readSession (getVRSessionData initXRWorld).1.heap
          (getVRSessionData initXRWorld).1.vrSessionData) ∧
    (∀ w2 : XRWorld, CoreSteps (getVRSessionData initXRWorld).1 w2 →
      readSession w2.heap (getVRSessionData initXRWorld).2 =
        readSession (getVRSessionData initXRWorld).1.heap
          (getVRSessionData initXRWorld).2 ∧
      readVec w2.heap
          (readSession initXRWorld.heap initXRWorld.vrSessionData).headPosition =
        readVec (getVRSessionData initXRWorld).1.heap
          (readSession initXRWorld.heap initXRWorld.vrSessionData).headPosition ∧
      readVec w2.heap
          (readSession initXRWorld.heap initXRWorld.vrSessionData).headRotation =
        readVec (getVRSessionData initXRWorld).1.heap
          (readSession initXRWorld.heap initXRWorld.vrSessionData).headRotation ∧
      readCtrls w2.heap
          (readSession initXRWorld.heap initXRWorld.vrSessionData).controllers =
        readCtrls (getVRSessionData initXRWorld).1.heap
          (readSession initXRWorld.heap initXRWorld.vrSessionData).controllers) :=
  C8_snapshot_copy_semantics initXRWorld (by decide) (by decide) (by decide)
    (by decide) (by decide) (by decide) (by decide)

end VRWebXR
